import Mathlib

/-!
Shallow embedding of the blue/green deployment alert watcher
(`watcher/watcher.py`): line parsing, the rolling status window, the
field-completeness tracker and the alert state machine, together with
proofs of the behavioural properties of the main loop.
-/

/-- Python `str.split()` with no separator: split on whitespace runs,
dropping empty pieces. -/
def pythonSplit (s : String) : List String :=
  (s.split Char.isWhitespace).filter (fun t => t ≠ "")

/-- Digit run of a Python integer literal after its first digit: single
underscores are allowed between digits, the value is accumulated. -/
def pyDigitsAux : List Char → Nat → Option Nat
  | [], acc => some acc
  | '_' :: c :: cs, acc =>
      if c.isDigit then pyDigitsAux cs (acc * 10 + (c.toNat - 48)) else none
  | ['_'], _ => none
  | c :: cs, acc =>
      if c.isDigit then pyDigitsAux cs (acc * 10 + (c.toNat - 48)) else none

/-- Digit run of a Python integer literal: must start with a digit. -/
def pyDigits : List Char → Option Nat
  | [] => none
  | c :: cs => if c.isDigit then pyDigitsAux cs (c.toNat - 48) else none

/-- Model of Python `int(str)`: strip surrounding whitespace, optional
sign, then a digit run; `none` (a `ValueError`) on anything else. -/
def pyInt (s : String) : Option Int :=
  match s.trim.data with
  | '+' :: rest => (pyDigits rest).map (fun n => (n : Int))
  | '-' :: rest => (pyDigits rest).map (fun n => -(n : Int))
  | cs => (pyDigits cs).map (fun n => (n : Int))

/-- Transient result of parsing one line: the values the watcher loop
extracts before alert evaluation (`pool`, `status`, `found_fields`). -/
structure LogRecord where
  pool : String
  status : Int
  found : List String
  deriving DecidableEq, Repr

/-- Value after the first `=` of a token: Python `part.split("=")[1]`. -/
def valueAfterEq (part : String) : String :=
  (part.splitOn "=").getD 1 ""

/-- Python `pat in s` for a nonempty pattern. -/
def pyContains (s pat : String) : Bool :=
  (s.splitOn pat).length != 1

/-- A token marks the `request` field when prefixed `request=` or when it
contains a quoted GET/POST fragment. -/
def marksRequest (part : String) : Bool :=
  part.startsWith "request=" || pyContains part "\x22GET " || pyContains part "\x22POST "

/-- One iteration of the token loop of the watcher: updates pool, status
and the found-fields list; fails when `int()` fails on the value of an
`upstream_status=` token (taken before the first comma). -/
def procToken (st : LogRecord) (part : String) : Option LogRecord :=
  let st1 :=
    if part.startsWith "pool=" then
      { st with pool := valueAfterEq part, found := st.found ++ ["pool"] }
    else st
  if part.startsWith "upstream_status=" then
    match pyInt (((valueAfterEq part).splitOn ",").headD "") with
    | none => none
    | some v =>
        let st2 := { st1 with status := v, found := st1.found ++ ["upstream_status"] }
        some (if marksRequest part then { st2 with found := st2.found ++ ["request"] } else st2)
  else
    some (if marksRequest part then { st1 with found := st1.found ++ ["request"] } else st1)

/-- The token loop over all whitespace-separated tokens of a line: a
failure on any token (Python raising out of the `for` loop) discards the
whole line. -/
def parseTokens (st : LogRecord) (ps : List String) : Option LogRecord :=
  ps.foldl (fun acc p => acc.bind (fun stt => procToken stt p)) (some st)

/-- Parse one stripped line exactly as the watcher does: defaults are
`pool="unknown"`, `status=0`, no fields found; the whole line fails when
any `upstream_status=` value is non-numeric. -/
def parseLine (line : String) : Option LogRecord :=
  parseTokens ⟨"unknown", 0, []⟩ (pythonSplit line)

/-- Configuration read from the environment at startup. -/
structure Config where
  activePool : String
  threshold : ℚ
  windowSize : Nat
  cooldownSec : Int
  deriving DecidableEq, Repr

/-- Mutable process-wide state of the watcher loop. -/
structure WatcherState where
  lastAlertTime : Int
  lastPool : String
  lastErrorState : Bool
  statusWindow : List Int
  missingFieldsCount : Nat
  totalLogsCount : Nat
  deriving DecidableEq, Repr

/-- Initial state: epoch timestamp, baseline pool, empty window. -/
def initState (cfg : Config) : WatcherState :=
  { lastAlertTime := 0
    lastPool := cfg.activePool
    lastErrorState := false
    statusWindow := []
    missingFieldsCount := 0
    totalLogsCount := 0 }

/-- The alert events the watcher can deliver. -/
inductive Alert where
  | dataQuality (missingCount totalCount : Nat)
  | unreachableEndpoint (pool : String)
  | headerAnomaly (status : Int) (pool : String)
  | failover (fromPool toPool : String)
  | recovery (fromPool toPool : String)
  | poolSwitch (fromPool toPool : String)
  | errorRateElevated (rate : ℚ)
  | errorRateRecovered (rate : ℚ)
  deriving DecidableEq, Repr

/-- Python `deque(maxlen=maxlen).append`: append at the back, evicting from the
front whatever exceeds the bound. -/
def pushWindow (maxlen : Nat) (w : List Int) (x : Int) : List Int :=
  (w ++ [x]).drop ((w ++ [x]).length - maxlen)

/-- Count of 5xx statuses in the window. -/
def countErrors (w : List Int) : Nat :=
  (w.filter (fun s => decide (500 ≤ s ∧ s < 600))).length

/-- Live error rate: `(errors / size) * 100`, or 0 on an empty window. -/
def errorRate (w : List Int) : ℚ :=
  if w.isEmpty then 0 else ((countErrors w : ℚ) / (w.length : ℚ)) * 100

/-- The fixed required-field set. -/
def requiredFields : List String := ["pool", "upstream_status", "request"]

/-- Missing-field bookkeeping and the periodic data-quality alert; the
state passed in already has `total_logs_count` incremented for this
record, as in the source. -/
def completenessStep (s : WatcherState) (found : List String) :
    WatcherState × List Alert :=
  if (requiredFields.filter (fun f => decide (f ∉ found))).isEmpty then (s, [])
  else if (((s.missingFieldsCount + 1 : ℕ) : ℚ) / ((s.totalLogsCount : ℕ) : ℚ)) * 3 ≥ 1 ∧
      s.totalLogsCount % 50 = 0 then
    ({ s with missingFieldsCount := s.missingFieldsCount + 1 },
      [Alert.dataQuality (s.missingFieldsCount + 1) s.totalLogsCount])
  else ({ s with missingFieldsCount := s.missingFieldsCount + 1 }, [])

/-- The 5xx-with-missing-upstream-header check. -/
def headerStep (status : Int) (pool : String) (found : List String) : List Alert :=
  if 500 ≤ status ∧ status < 600 ∧ "upstream_status" ∉ found then
    [Alert.headerAnomaly status pool]
  else []

/-- Classification of a pool change against the configured active pool. -/
def classifyPool (activePool lastPool pool : String) : Alert :=
  if lastPool = activePool ∧ pool ≠ activePool then Alert.failover lastPool pool
  else if lastPool ≠ activePool ∧ pool = activePool then Alert.recovery lastPool pool
  else Alert.poolSwitch lastPool pool

/-- Pool-change detection: the alert is attempted only when the shared
cooldown has elapsed; `last_pool` is updated regardless. -/
def poolStep (cfg : Config) (s : WatcherState) (now : Int) (pool : String) :
    WatcherState × List Alert :=
  if pool ≠ "unknown" ∧ pool ≠ "-" ∧ pool ≠ s.lastPool then
    if now - s.lastAlertTime > cfg.cooldownSec then
      ({ s with lastAlertTime := now, lastPool := pool },
        [classifyPool cfg.activePool s.lastPool pool])
    else ({ s with lastPool := pool }, [])
  else (s, [])

/-- Error-rate latch: elevated / recovered transitions under the shared
cooldown; the latch flips only when the alert actually sends. -/
def errorStep (cfg : Config) (s : WatcherState) (now : Int) (rate : ℚ) :
    WatcherState × List Alert :=
  if rate > cfg.threshold then
    if now - s.lastAlertTime > cfg.cooldownSec ∧ s.lastErrorState = false then
      ({ s with lastAlertTime := now, lastErrorState := true },
        [Alert.errorRateElevated rate])
    else (s, [])
  else
    if rate ≤ cfg.threshold ∧ s.lastErrorState = true then
      if now - s.lastAlertTime > cfg.cooldownSec then
        ({ s with lastAlertTime := now, lastErrorState := false },
          [Alert.errorRateRecovered rate])
      else (s, [])
    else (s, [])

/-- Alert evaluation for one successfully parsed record (the state already
has `total_logs_count` incremented): the completeness check, the
unreachable-endpoint and header checks, the window push, then the
pool-change and error-rate blocks. -/
def processRecord (cfg : Config) (s : WatcherState) (now : Int) (r : LogRecord) :
    WatcherState × List Alert :=
  let c := completenessStep s r.found
  if r.status = 0 then (c.1, c.2 ++ [Alert.unreachableEndpoint r.pool])
  else
    let s1 := { c.1 with statusWindow := pushWindow cfg.windowSize c.1.statusWindow r.status }
    let p := poolStep cfg s1 now r.pool
    let e := errorStep cfg p.1 now (errorRate s1.statusWindow)
    (e.1, c.2 ++ headerStep r.status r.pool r.found ++ p.2 ++ e.2)

/-- Process one raw line of the log exactly as the watcher main loop does:
strip, skip empty, count, parse (dropping the line on failure), then
evaluate all alert transitions on the parsed record. -/
def processLine (cfg : Config) (s : WatcherState) (now : Int) (rawLine : String) :
    WatcherState × List Alert :=
  if rawLine.trim = "" then (s, [])
  else
    let s0 := { s with totalLogsCount := s.totalLogsCount + 1 }
    match parseLine rawLine.trim with
    | none => (s0, [])
    | some r => processRecord cfg s0 now r

/-- Process a timed trace of raw lines, collecting timestamped alerts. -/
def processTrace (cfg : Config) : WatcherState → List (Int × String) →
    WatcherState × List (Int × Alert)
  | s, [] => (s, [])
  | s, (now, line) :: rest =>
    let r1 := processLine cfg s now line
    let r2 := processTrace cfg r1.1 rest
    (r2.1, r1.2.map (fun a => (now, a)) ++ r2.2)

/-- Alert kinds governed by the shared cooldown clock (the pool-change
family and the two error-rate alerts). -/
def Alert.isShared : Alert → Bool
  | Alert.failover _ _ => true
  | Alert.recovery _ _ => true
  | Alert.poolSwitch _ _ => true
  | Alert.errorRateElevated _ => true
  | Alert.errorRateRecovered _ => true
  | _ => false

/-- Discriminator for `unreachableEndpoint`. -/
def Alert.isUnreachable : Alert → Bool
  | Alert.unreachableEndpoint _ => true
  | _ => false

/-- Relative to the time of the last cooldown-governed alert, every
cooldown-governed alert in the log is strictly more than `cooldown`
seconds after its predecessor. -/
def sharedChain (cooldown : Int) : Int → List (Int × Alert) → Prop
  | _, [] => True
  | t0, (t, a) :: rest =>
    if a.isShared then t - t0 > cooldown ∧ sharedChain cooldown t rest
    else sharedChain cooldown t0 rest

/-- Time of the last cooldown-governed alert in the log, defaulting to the
initial value. -/
def lastShared : Int → List (Int × Alert) → Int
  | t0, [] => t0
  | t0, (t, a) :: rest => lastShared (if a.isShared then t else t0) rest

/-- Sample configuration: baseline pool blue, 2% threshold, window 200,
cooldown 300s (the defaults of the source). -/
def cfg0 : Config := ⟨"blue", 2, 200, 300⟩

/-- Unfolding of `pushWindow` with the length of the append normalised. -/
lemma pushWindow_eq (n : Nat) (w : List Int) (x : Int) :
    pushWindow n w x = (w ++ [x]).drop (w.length + 1 - n) := by
  simp [pushWindow]

/-- All pushes of a status sequence into an initially empty window. -/
def pushAllStatuses (n : Nat) (xs : List Int) : List Int :=
  xs.foldl (pushWindow n) []

/-- Folding pushes over any window of legal size keeps exactly the last
`n` elements of the accumulated stream. -/
lemma foldl_pushWindow (n : Nat) :
    ∀ (xs w : List Int), w.length ≤ n →
      xs.foldl (pushWindow n) w = (w ++ xs).drop (w.length + xs.length - n) := by
  intro xs
  induction xs with
  | nil =>
    intro w hw
    simp [Nat.sub_eq_zero_of_le hw]
  | cons x xs ih =>
    intro w hw
    have hlen : (pushWindow n w x).length = (w.length + 1) - (w.length + 1 - n) := by
      simp [pushWindow_eq]
    have hle : (pushWindow n w x).length ≤ n := by omega
    rw [List.foldl_cons, ih _ hle, hlen, pushWindow_eq]
    have hk : w.length + 1 - n ≤ (w ++ [x]).length := by
      simp
    rw [← List.drop_append_of_le_length hk, List.drop_drop]
    have harr : (w ++ [x]) ++ xs = w ++ x :: xs := by simp
    rw [harr]
    congr 1
    simp only [List.length_cons]
    omega

/-- C7: for every sequence of pushes into a `RollingWindow` of capacity
`n`, the window holds exactly the most recent `min (pushCount) n`
statuses in arrival order, its size never exceeds `n`, and a push into a
full window evicts the oldest entry before appending the new one
(strict FIFO). -/
theorem c7_window_fifo (n : Nat) (xs w : List Int) (x : Int)
    (h1 : w.length = n) (h2 : 0 < n) :
    pushAllStatuses n xs = xs.drop (xs.length - n) ∧
    (pushAllStatuses n xs).length = min xs.length n ∧
    pushWindow n w x = w.tail ++ [x] := by
  have hmain : pushAllStatuses n xs = xs.drop (xs.length - n) := by
    have := foldl_pushWindow n xs [] (by simp)
    simpa [pushAllStatuses] using this
  refine ⟨hmain, ?_, ?_⟩
  · rw [hmain, List.length_drop]
    omega
  · rw [pushWindow_eq, h1]
    have hn1 : n + 1 - n = 1 := by omega
    rw [hn1]
    have h1le : 1 ≤ w.length := by omega
    rw [List.drop_append_of_le_length (by omega), List.drop_one]

/-- Witness for C7 at capacity 2, stream `[1, 2, 3]`, full window `[7, 8]`
receiving `9`. -/
theorem c7_witness :
    pushAllStatuses 2 [1, 2, 3] = [2, 3] ∧
    (pushAllStatuses 2 [1, 2, 3]).length = 2 ∧
    pushWindow 2 [7, 8] 9 = [8, 9] :=
  c7_window_fifo 2 [1, 2, 3] [7, 8] 9 rfl (by decide)

/-- C8: the error rate is 0 on an empty window, otherwise
`100 * errorCount / size`, and always lies in `[0, 100]`. -/
theorem c8_error_rate_bounds (w : List Int) :
    errorRate w = (if w.isEmpty then 0 else 100 * (countErrors w : ℚ) / (w.length : ℚ)) ∧
    0 ≤ errorRate w ∧ errorRate w ≤ 100 := by
  unfold errorRate
  by_cases h : w.isEmpty
  · simp [h]
  · have hw : w ≠ [] := by simpa [List.isEmpty_iff] using h
    have hlen : 0 < w.length := List.length_pos.mpr hw
    have hn : 0 < (w.length : ℚ) := by exact_mod_cast hlen
    have hc : (countErrors w : ℚ) ≤ (w.length : ℚ) := by
      have : countErrors w ≤ w.length := List.length_filter_le _ _
      exact_mod_cast this
    have hc0 : 0 ≤ (countErrors w : ℚ) := by positivity
    simp only [h, if_false]
    refine ⟨by ring_nf, ?_, ?_⟩
    · positivity
    · have hdiv : (countErrors w : ℚ) / (w.length : ℚ) ≤ 1 := (div_le_one hn).mpr hc
      calc (countErrors w : ℚ) / (w.length : ℚ) * 100 ≤ 1 * 100 := by
            exact mul_le_mul_of_nonneg_right hdiv (by norm_num)
        _ = 100 := by norm_num

/-- The completeness step only ever touches `missingFieldsCount`. -/
lemma completenessStep_fst (s : WatcherState) (found : List String) :
    (completenessStep s found).1.lastAlertTime = s.lastAlertTime ∧
    (completenessStep s found).1.lastPool = s.lastPool ∧
    (completenessStep s found).1.lastErrorState = s.lastErrorState ∧
    (completenessStep s found).1.statusWindow = s.statusWindow ∧
    (completenessStep s found).1.totalLogsCount = s.totalLogsCount := by
  unfold completenessStep
  split
  · exact ⟨rfl, rfl, rfl, rfl, rfl⟩
  · split <;> exact ⟨rfl, rfl, rfl, rfl, rfl⟩

/-- The completeness step emits at most a data-quality alert carrying the
incremented counters. -/
lemma completenessStep_snd (s : WatcherState) (found : List String) :
    (completenessStep s found).2 = [] ∨
    (completenessStep s found).2 =
      [Alert.dataQuality (s.missingFieldsCount + 1) s.totalLogsCount] := by
  unfold completenessStep
  split
  · exact Or.inl rfl
  · split
    · exact Or.inr rfl
    · exact Or.inl rfl

/-- The header step emits at most a header-anomaly alert. -/
lemma headerStep_cases (status : Int) (pool : String) (found : List String) :
    headerStep status pool found = [] ∨
    headerStep status pool found = [Alert.headerAnomaly status pool] := by
  unfold headerStep
  split
  · exact Or.inr rfl
  · exact Or.inl rfl

/-- Every pool-change classification is a cooldown-governed alert. -/
lemma classifyPool_isShared (a b p : String) :
    (classifyPool a b p).isShared = true := by
  unfold classifyPool
  split
  · rfl
  · split <;> rfl

/-- The pool step never touches the window, the error latch or the
completeness counters. -/
lemma poolStep_preserves (cfg : Config) (s : WatcherState) (now : Int) (pool : String) :
    (poolStep cfg s now pool).1.statusWindow = s.statusWindow ∧
    (poolStep cfg s now pool).1.lastErrorState = s.lastErrorState ∧
    (poolStep cfg s now pool).1.missingFieldsCount = s.missingFieldsCount ∧
    (poolStep cfg s now pool).1.totalLogsCount = s.totalLogsCount := by
  unfold poolStep
  split
  · split <;> exact ⟨rfl, rfl, rfl, rfl⟩
  · exact ⟨rfl, rfl, rfl, rfl⟩

/-- The pool step emits at most the classification of the change. -/
lemma poolStep_snd (cfg : Config) (s : WatcherState) (now : Int) (pool : String) :
    (poolStep cfg s now pool).2 = [] ∨
    (poolStep cfg s now pool).2 = [classifyPool cfg.activePool s.lastPool pool] := by
  unfold poolStep
  split
  · split
    · exact Or.inr rfl
    · exact Or.inl rfl
  · exact Or.inl rfl

/-- The error step never touches the window, the pool history or the
completeness counters. -/
lemma errorStep_preserves (cfg : Config) (s : WatcherState) (now : Int) (rate : ℚ) :
    (errorStep cfg s now rate).1.statusWindow = s.statusWindow ∧
    (errorStep cfg s now rate).1.lastPool = s.lastPool ∧
    (errorStep cfg s now rate).1.missingFieldsCount = s.missingFieldsCount ∧
    (errorStep cfg s now rate).1.totalLogsCount = s.totalLogsCount := by
  unfold errorStep
  split
  · split <;> exact ⟨rfl, rfl, rfl, rfl⟩
  · split
    · split <;> exact ⟨rfl, rfl, rfl, rfl⟩
    · exact ⟨rfl, rfl, rfl, rfl⟩

/-- The error step emits at most one error-rate alert. -/
lemma errorStep_snd (cfg : Config) (s : WatcherState) (now : Int) (rate : ℚ) :
    (errorStep cfg s now rate).2 = [] ∨
    (errorStep cfg s now rate).2 = [Alert.errorRateElevated rate] ∨
    (errorStep cfg s now rate).2 = [Alert.errorRateRecovered rate] := by
  unfold errorStep
  split
  · split
    · exact Or.inr (Or.inl rfl)
    · exact Or.inl rfl
  · split
    · split
      · exact Or.inr (Or.inr rfl)
      · exact Or.inl rfl
    · exact Or.inl rfl

/-- The function `lastShared` distributes over append. -/
lemma lastShared_append (t0 : Int) (l1 l2 : List (Int × Alert)) :
    lastShared t0 (l1 ++ l2) = lastShared (lastShared t0 l1) l2 := by
  induction l1 generalizing t0 with
  | nil => rfl
  | cons p l ih =>
    cases p with
    | mk t a =>
      simp only [List.cons_append, lastShared]
      exact ih _

/-- The predicate `sharedChain` glues along append when the second part starts from the
last shared time of the first. -/
lemma sharedChain_append (c : Int) (l1 l2 : List (Int × Alert)) :
    ∀ t0, sharedChain c t0 l1 → sharedChain c (lastShared t0 l1) l2 →
      sharedChain c t0 (l1 ++ l2) := by
  induction l1 with
  | nil =>
    intro t0 _ h2
    simpa [lastShared] using h2
  | cons p l ih =>
    intro t0 h1 h2
    cases p with
    | mk t a =>
      simp only [List.cons_append, sharedChain] at h1 ⊢
      cases ha : a.isShared with
      | true =>
        rw [ha, if_pos rfl] at h1
        rw [if_pos rfl]
        exact ⟨h1.1, ih t h1.2 (by simpa [lastShared, ha] using h2)⟩
      | false =>
        rw [ha, if_neg (by simp)] at h1
        rw [if_neg (by simp)]
        exact ih t0 h1 (by simpa [lastShared, ha] using h2)

/-- A log of non-cooldown alerts trivially satisfies the chain and leaves
the last shared time unchanged. -/
lemma sharedChain_of_unshared (c : Int) (l : List (Int × Alert))
    (h : ∀ p ∈ l, (Prod.snd p).isShared = false) :
    ∀ t0, sharedChain c t0 l ∧ lastShared t0 l = t0 := by
  induction l with
  | nil => exact fun t0 => ⟨trivial, rfl⟩
  | cons p l ih =>
    intro t0
    cases p with
    | mk t a =>
      have ha : a.isShared = false := h (t, a) (by simp)
      have hrest : ∀ q ∈ l, (Prod.snd q).isShared = false := fun q hq => h q (by simp [hq])
      refine ⟨?_, ?_⟩
      · simp only [sharedChain, ha, if_false]
        exact (ih hrest t0).1
      · simp only [lastShared, ha, if_false]
        exact (ih hrest t0).2

/-- The pool step respects the shared cooldown chain and records the send
time in `lastAlertTime` exactly when it sends. -/
lemma poolStep_chain (cfg : Config) (s : WatcherState) (now : Int) (pool : String) :
    sharedChain cfg.cooldownSec s.lastAlertTime
      ((poolStep cfg s now pool).2.map (fun a => (now, a))) ∧
    (poolStep cfg s now pool).1.lastAlertTime =
      lastShared s.lastAlertTime ((poolStep cfg s now pool).2.map (fun a => (now, a))) := by
  unfold poolStep
  split
  · split
    · rename_i hcool
      constructor
      · simp only [List.map_cons, List.map_nil, sharedChain,
          classifyPool_isShared, if_pos rfl]
        exact ⟨hcool, trivial⟩
      · simp only [List.map_cons, List.map_nil, lastShared, classifyPool_isShared]
        exact (if_pos trivial).symm
    · exact ⟨trivial, rfl⟩
  · exact ⟨trivial, rfl⟩

/-- The error step respects the shared cooldown chain and records the send
time in `lastAlertTime` exactly when it sends. -/
lemma errorStep_chain (cfg : Config) (s : WatcherState) (now : Int) (rate : ℚ) :
    sharedChain cfg.cooldownSec s.lastAlertTime
      ((errorStep cfg s now rate).2.map (fun a => (now, a))) ∧
    (errorStep cfg s now rate).1.lastAlertTime =
      lastShared s.lastAlertTime ((errorStep cfg s now rate).2.map (fun a => (now, a))) := by
  unfold errorStep
  split
  · split
    · rename_i hcool
      constructor
      · simp only [List.map_cons, List.map_nil, sharedChain, Alert.isShared, if_pos rfl]
        exact ⟨hcool.1, trivial⟩
      · simp only [List.map_cons, List.map_nil, lastShared, Alert.isShared]
        exact (if_pos trivial).symm
    · exact ⟨trivial, rfl⟩
  · split
    · split
      · rename_i hcool
        constructor
        · simp only [List.map_cons, List.map_nil, sharedChain, Alert.isShared, if_pos rfl]
          exact ⟨hcool, trivial⟩
        · simp only [List.map_cons, List.map_nil, lastShared, Alert.isShared]
          exact (if_pos trivial).symm
      · exact ⟨trivial, rfl⟩
    · exact ⟨trivial, rfl⟩

/-- An empty (or all-whitespace) line is skipped entirely. -/
lemma processLine_empty (cfg : Config) (s : WatcherState) (now : Int) (rawLine : String)
    (h : rawLine.trim = "") : processLine cfg s now rawLine = (s, []) := by
  simp [processLine, h]

/-- A parse failure only increments `total_logs_count` and drops the line. -/
lemma processLine_parse_fail (cfg : Config) (s : WatcherState) (now : Int) (rawLine : String)
    (h0 : rawLine.trim ≠ "") (h1 : parseLine rawLine.trim = none) :
    processLine cfg s now rawLine = ({ s with totalLogsCount := s.totalLogsCount + 1 }, []) := by
  simp [processLine, h0, h1]

/-- A successfully parsed line increments `total_logs_count` and evaluates
the record. -/
lemma processLine_parse_ok (cfg : Config) (s : WatcherState) (now : Int) (rawLine : String)
    (r : LogRecord) (h0 : rawLine.trim ≠ "") (h1 : parseLine rawLine.trim = some r) :
    processLine cfg s now rawLine =
      processRecord cfg { s with totalLogsCount := s.totalLogsCount + 1 } now r := by
  simp [processLine, h0, h1]

/-- A record with status 0 stops after the completeness check and the
unreachable-endpoint alert. -/
lemma processRecord_zero (cfg : Config) (s : WatcherState) (now : Int) (r : LogRecord)
    (h : r.status = 0) :
    processRecord cfg s now r =
      ((completenessStep s r.found).1,
        (completenessStep s r.found).2 ++ [Alert.unreachableEndpoint r.pool]) := by
  simp [processRecord, h]

/-- A record with non-zero status runs the full pipeline. -/
lemma processRecord_nonzero (cfg : Config) (s : WatcherState) (now : Int) (r : LogRecord)
    (h : r.status ≠ 0) :
    processRecord cfg s now r =
      ((errorStep cfg
          (poolStep cfg
            { (completenessStep s r.found).1 with
              statusWindow := pushWindow cfg.windowSize
                (completenessStep s r.found).1.statusWindow r.status } now r.pool).1 now
          (errorRate (pushWindow cfg.windowSize
            (completenessStep s r.found).1.statusWindow r.status))).1,
        (completenessStep s r.found).2 ++ headerStep r.status r.pool r.found ++
          (poolStep cfg
            { (completenessStep s r.found).1 with
              statusWindow := pushWindow cfg.windowSize
                (completenessStep s r.found).1.statusWindow r.status } now r.pool).2 ++
          (errorStep cfg
            (poolStep cfg
              { (completenessStep s r.found).1 with
                statusWindow := pushWindow cfg.windowSize
                  (completenessStep s r.found).1.statusWindow r.status } now r.pool).1 now
            (errorRate (pushWindow cfg.windowSize
              (completenessStep s r.found).1.statusWindow r.status))).2) := by
  simp [processRecord, h]

/-- Completeness alerts are not governed by the shared cooldown. -/
lemma completenessStep_unshared (s : WatcherState) (found : List String) :
    ∀ a ∈ (completenessStep s found).2, a.isShared = false := by
  intro a ha
  rcases completenessStep_snd s found with h | h <;> rw [h] at ha
  · simp at ha
  · simp at ha
    rw [ha]
    rfl

/-- Header alerts are not governed by the shared cooldown. -/
lemma headerStep_unshared (status : Int) (pool : String) (found : List String) :
    ∀ a ∈ headerStep status pool found, a.isShared = false := by
  intro a ha
  rcases headerStep_cases status pool found with h | h <;> rw [h] at ha
  · simp at ha
  · simp at ha
    rw [ha]
    rfl

/-- A list of non-cooldown alerts stamped with one time satisfies the chain
and leaves the last shared time unchanged. -/
lemma chain_of_unshared_alerts (c t0 now : Int) (l : List Alert)
    (h : ∀ a ∈ l, a.isShared = false) :
    sharedChain c t0 (l.map (fun a => (now, a))) ∧
    lastShared t0 (l.map (fun a => (now, a))) = t0 := by
  refine sharedChain_of_unshared c _ ?_ t0
  intro p hp
  simp only [List.mem_map] at hp
  obtain ⟨a, ha, rfl⟩ := hp
  exact h a ha

/-- The pool and error blocks, prefixed by any non-cooldown alerts, respect
the shared cooldown chain, and the final `lastAlertTime` is the time of the
last cooldown-governed alert. -/
lemma poolErrorChain (cfg : Config) (sc : WatcherState) (now : Int) (pool : String)
    (rate : ℚ) (l1 : List Alert) (h1 : ∀ a ∈ l1, a.isShared = false) :
    sharedChain cfg.cooldownSec sc.lastAlertTime
      ((l1 ++ (poolStep cfg sc now pool).2 ++
        (errorStep cfg (poolStep cfg sc now pool).1 now rate).2).map (fun a => (now, a))) ∧
    (errorStep cfg (poolStep cfg sc now pool).1 now rate).1.lastAlertTime =
      lastShared sc.lastAlertTime
        ((l1 ++ (poolStep cfg sc now pool).2 ++
          (errorStep cfg (poolStep cfg sc now pool).1 now rate).2).map (fun a => (now, a))) := by
  have hu := chain_of_unshared_alerts cfg.cooldownSec sc.lastAlertTime now l1 h1
  have hp := poolStep_chain cfg sc now pool
  have he := errorStep_chain cfg (poolStep cfg sc now pool).1 now rate
  simp only [List.map_append]
  constructor
  · refine sharedChain_append _ _ _ _ ?_ ?_
    · refine sharedChain_append _ _ _ _ hu.1 ?_
      rw [hu.2]
      exact hp.1
    · rw [lastShared_append, hu.2, ← hp.2]
      exact he.1
  · rw [lastShared_append, lastShared_append, hu.2, ← hp.2, ← he.2]

/-- Per-record shared-cooldown property: the alerts of one processed line
respect the chain starting at the incoming `lastAlertTime`, and the
outgoing `lastAlertTime` is the time of the last cooldown-governed alert. -/
lemma processLine_chain (cfg : Config) (s : WatcherState) (now : Int) (rawLine : String) :
    sharedChain cfg.cooldownSec s.lastAlertTime
      ((processLine cfg s now rawLine).2.map (fun a => (now, a))) ∧
    (processLine cfg s now rawLine).1.lastAlertTime =
      lastShared s.lastAlertTime
        ((processLine cfg s now rawLine).2.map (fun a => (now, a))) := by
  by_cases h0 : rawLine.trim = ""
  · rw [processLine_empty cfg s now rawLine h0]
    exact ⟨trivial, rfl⟩
  · cases h1 : parseLine rawLine.trim with
    | none =>
      rw [processLine_parse_fail cfg s now rawLine h0 h1]
      exact ⟨trivial, rfl⟩
    | some r =>
      rw [processLine_parse_ok cfg s now rawLine r h0 h1]
      set s0 : WatcherState := { s with totalLogsCount := s.totalLogsCount + 1 } with hs0
      have hc := completenessStep_fst s0 r.found
      by_cases hz : r.status = 0
      · rw [processRecord_zero cfg s0 now r hz]
        have hu : ∀ a ∈ (completenessStep s0 r.found).2 ++ [Alert.unreachableEndpoint r.pool],
            a.isShared = false := by
          intro a ha
          rcases List.mem_append.mp ha with h | h
          · exact completenessStep_unshared s0 r.found a h
          · simp at h
            rw [h]
            rfl
        have := chain_of_unshared_alerts cfg.cooldownSec s.lastAlertTime now _ hu
        refine ⟨this.1, ?_⟩
        rw [this.2, hc.1]
      · rw [processRecord_nonzero cfg s0 now r hz]
        have hl1 : ∀ a ∈ (completenessStep s0 r.found).2 ++ headerStep r.status r.pool r.found,
            a.isShared = false := by
          intro a ha
          rcases List.mem_append.mp ha with h | h
          · exact completenessStep_unshared s0 r.found a h
          · exact headerStep_unshared r.status r.pool r.found a h
        have hmain := poolErrorChain cfg
          { (completenessStep s0 r.found).1 with
            statusWindow := pushWindow cfg.windowSize
              (completenessStep s0 r.found).1.statusWindow r.status } now r.pool
          (errorRate (pushWindow cfg.windowSize
            (completenessStep s0 r.found).1.statusWindow r.status))
          ((completenessStep s0 r.found).2 ++ headerStep r.status r.pool r.found) hl1
        have hLAT : ({ (completenessStep s0 r.found).1 with
            statusWindow := pushWindow cfg.windowSize
              (completenessStep s0 r.found).1.statusWindow r.status } :
              WatcherState).lastAlertTime = s.lastAlertTime := hc.1
        rw [hLAT] at hmain
        constructor
        · have := hmain.1
          simpa [List.append_assoc] using this
        · have := hmain.2
          simpa [List.append_assoc] using this

/-- C1: over any record sequence, the alerts governed by the shared
cooldown (PoolChange in all three classifications, ErrorRateElevated,
ErrorRateRecovered) form a chain in which each such alert is sent strictly
more than `cooldownSeconds` after the previous one (so after a send at
time `t`, none of the three kinds sends again until more than
`cooldownSeconds` have elapsed since `t`); moreover `lastAlertTimestamp`
always equals the time of the last cooldown-governed alert, so every such
send updates it while UnreachableEndpoint and HeaderAnomaly alerts never
do. -/
theorem c1_shared_cooldown (cfg : Config) (s : WatcherState)
    (trace : List (Int × String)) :
    sharedChain cfg.cooldownSec s.lastAlertTime (processTrace cfg s trace).2 ∧
    (processTrace cfg s trace).1.lastAlertTime =
      lastShared s.lastAlertTime (processTrace cfg s trace).2 := by
  induction trace generalizing s with
  | nil => exact ⟨trivial, rfl⟩
  | cons p rest ih =>
    cases p with
    | mk now line =>
      have h1 := processLine_chain cfg s now line
      have h2 := ih (processLine cfg s now line).1
      simp only [processTrace]
      constructor
      · exact sharedChain_append _ _ _ _ h1.1 (h1.2 ▸ h2.1)
      · rw [lastShared_append, ← h1.2, h2.2]

/-- C2: on every successfully parsed record with status 0, the
UnreachableEndpoint alert fires with no cooldown condition, and processing
stops: the window, the pool history, the error latch and the cooldown
clock are untouched, and no cooldown-governed (pool-change or error-rate)
alert is emitted for that record. -/
theorem c2_unreachable_bypasses_cooldown (cfg : Config) (s : WatcherState) (now : Int)
    (rawLine : String) (r : LogRecord)
    (h0 : rawLine.trim ≠ "") (h1 : parseLine rawLine.trim = some r) (h2 : r.status = 0) :
    Alert.unreachableEndpoint r.pool ∈ (processLine cfg s now rawLine).2 ∧
    (processLine cfg s now rawLine).1.statusWindow = s.statusWindow ∧
    (processLine cfg s now rawLine).1.lastPool = s.lastPool ∧
    (processLine cfg s now rawLine).1.lastErrorState = s.lastErrorState ∧
    (processLine cfg s now rawLine).1.lastAlertTime = s.lastAlertTime ∧
    (processLine cfg s now rawLine).2.filter (fun a => a.isShared) = [] := by
  rw [processLine_parse_ok cfg s now rawLine r h0 h1, processRecord_zero cfg _ now r h2]
  set s0 : WatcherState := { s with totalLogsCount := s.totalLogsCount + 1 } with hs0
  have hc := completenessStep_fst s0 r.found
  refine ⟨by simp, ?_, ?_, ?_, ?_, ?_⟩
  · exact hc.2.2.2.1
  · exact hc.2.1
  · exact hc.2.2.1
  · exact hc.1
  · rw [List.filter_append]
    have hnil : (completenessStep s0 r.found).2.filter (fun a => a.isShared) = [] := by
      rw [List.filter_eq_nil_iff]
      intro a ha
      simp [completenessStep_unshared s0 r.found a ha]
    rw [hnil]
    simp [Alert.isShared]

/-- Witness for C2: the line `upstream_status=0` from the initial state. -/
theorem c2_witness :
    Alert.unreachableEndpoint "unknown" ∈
      (processLine cfg0 (initState cfg0) 0 "upstream_status=0").2 ∧
    (processLine cfg0 (initState cfg0) 0 "upstream_status=0").1.statusWindow = [] ∧
    (processLine cfg0 (initState cfg0) 0 "upstream_status=0").2.filter
      (fun a => a.isShared) = [] := by
  have h0 : ("upstream_status=0" : String).trim ≠ "" := by with_unfolding_all decide
  have h1 : parseLine ("upstream_status=0" : String).trim =
      some ⟨"unknown", 0, ["upstream_status"]⟩ := by with_unfolding_all decide
  have h := c2_unreachable_bypasses_cooldown cfg0 (initState cfg0) 0 "upstream_status=0"
    ⟨"unknown", 0, ["upstream_status"]⟩ h0 h1 rfl
  exact ⟨h.1, h.2.1, h.2.2.2.2.2⟩

/-- A pool-change classification is never a header anomaly. -/
lemma classifyPool_ne_header (a b p : String) (st : Int) (pl : String) :
    classifyPool a b p ≠ Alert.headerAnomaly st pl := by
  unfold classifyPool
  split
  · simp
  · split <;> simp

/-- Parsing preserves the link between a 5xx status and the recorded
`upstream_status` field: whenever the running status is a 5xx, the field
has been marked found. -/
lemma procToken_inv (st : LogRecord) (part : String) (st2 : LogRecord)
    (h : procToken st part = some st2)
    (hst : 500 ≤ st.status → "upstream_status" ∈ st.found) :
    500 ≤ st2.status → "upstream_status" ∈ st2.found := by
  unfold procToken at h
  by_cases hu : part.startsWith "upstream_status="
  · rw [if_pos hu] at h
    cases hv : pyInt (((valueAfterEq part).splitOn ",").headD "") with
    | none => rw [hv] at h; exact absurd h (by simp)
    | some v =>
      rw [hv] at h
      simp only [Option.some.injEq] at h
      subst h
      intro _
      split <;> split <;> simp
  · rw [if_neg hu] at h
    simp only [Option.some.injEq] at h
    subst h
    intro h5
    split <;> split <;> simp_all

/-- A failed token loop stays failed. -/
lemma parseTokens_none (ps : List String) :
    ps.foldl (fun acc p => acc.bind (fun stt => procToken stt p)) none = none := by
  induction ps with
  | nil => rfl
  | cons p ps ih => simpa using ih

/-- Unfolding: the token loop on no tokens. -/
lemma parseTokens_nil (st : LogRecord) : parseTokens st [] = some st := rfl

/-- Unfolding: the token loop on one more token. -/
lemma parseTokens_cons (st : LogRecord) (p : String) (ps : List String) :
    parseTokens st (p :: ps) =
      match procToken st p with
      | none => none
      | some st2 => parseTokens st2 ps := by
  unfold parseTokens
  rw [List.foldl_cons, Option.some_bind]
  cases hp : procToken st p with
  | none => exact parseTokens_none ps
  | some st2 => rfl

/-- The parse invariant extends over the whole token loop. -/
lemma parseTokens_inv : ∀ (ps : List String) (st r : LogRecord),
    parseTokens st ps = some r →
    (500 ≤ st.status → "upstream_status" ∈ st.found) →
    500 ≤ r.status → "upstream_status" ∈ r.found := by
  intro ps
  induction ps with
  | nil =>
    intro st r h hst
    rw [parseTokens_nil] at h
    simp only [Option.some.injEq] at h
    subst h
    exact hst
  | cons p ps ih =>
    intro st r h hst
    rw [parseTokens_cons] at h
    cases hp : procToken st p with
    | none =>
      rw [hp] at h
      exact absurd h (by simp)
    | some st2 =>
      rw [hp] at h
      exact ih st2 r h (procToken_inv st p st2 hp hst)

/-- Every successfully parsed record with a 5xx status has the
`upstream_status` field marked found. -/
lemma parseLine_inv (line : String) (r : LogRecord) (h : parseLine line = some r) :
    500 ≤ r.status → "upstream_status" ∈ r.found :=
  parseTokens_inv (pythonSplit line) ⟨"unknown", 0, []⟩ r h (by intro h5; exact absurd h5 (by simp))

/-- On parsed records the header check never fires. -/
lemma headerStep_nil (line : String) (r : LogRecord) (h : parseLine line = some r) :
    headerStep r.status r.pool r.found = [] := by
  unfold headerStep
  rw [if_neg]
  intro hcon
  exact hcon.2.2 (parseLine_inv line r h hcon.1)

/-- C9: the HeaderAnomaly alert can never fire: a 5xx status is only ever
derived from an `upstream_status=` token, which always marks the field
present, so the guard `500 ≤ status < 600 ∧ upstream_status absent` is
unsatisfiable on every input line. -/
theorem c9_header_anomaly_never_fires (cfg : Config) (s : WatcherState) (now : Int)
    (rawLine : String) (status : Int) (pool : String) :
    Alert.headerAnomaly status pool ∉ (processLine cfg s now rawLine).2 := by
  by_cases h0 : rawLine.trim = ""
  · rw [processLine_empty cfg s now rawLine h0]
    simp
  · cases h1 : parseLine rawLine.trim with
    | none =>
      rw [processLine_parse_fail cfg s now rawLine h0 h1]
      simp
    | some r =>
      rw [processLine_parse_ok cfg s now rawLine r h0 h1]
      set s0 : WatcherState := { s with totalLogsCount := s.totalLogsCount + 1 } with hs0
      by_cases hz : r.status = 0
      · rw [processRecord_zero cfg s0 now r hz]
        intro hmem
        simp only [List.mem_append, List.mem_singleton] at hmem
        rcases hmem with h | h
        · have := completenessStep_unshared s0 r.found _ h
          rcases completenessStep_snd s0 r.found with hs | hs <;> rw [hs] at h <;> simp at h
        · exact absurd h (by simp)
      · rw [processRecord_nonzero cfg s0 now r hz]
        intro hmem
        simp only [List.mem_append] at hmem
        rcases hmem with ((h | h) | h) | h
        · rcases completenessStep_snd s0 r.found with hs | hs <;> rw [hs] at h <;> simp at h
        · rw [headerStep_nil rawLine.trim r h1] at h
          simp at h
        · rcases poolStep_snd cfg _ now r.pool with hs | hs <;> rw [hs] at h
          · simp at h
          · simp only [List.mem_singleton] at h
            exact classifyPool_ne_header _ _ _ _ _ h.symm
        · rcases errorStep_snd cfg _ now _ with hs | hs | hs <;> rw [hs] at h <;> simp at h

/-- A token that is not an `upstream_status=` token always parses and
leaves the status unchanged. -/
lemma procToken_no_upstream (st : LogRecord) (p : String)
    (h : p.startsWith "upstream_status=" = false) :
    ∃ st2, procToken st p = some st2 ∧ st2.status = st.status := by
  unfold procToken
  rw [if_neg (by simp [h])]
  refine ⟨_, rfl, ?_⟩
  split <;> split <;> rfl

/-- A line with no `upstream_status=` token always parses and keeps the
default status. -/
lemma parseTokens_no_upstream : ∀ (ps : List String) (st : LogRecord),
    (∀ t ∈ ps, t.startsWith "upstream_status=" = false) →
    ∃ r, parseTokens st ps = some r ∧ r.status = st.status := by
  intro ps
  induction ps with
  | nil => exact fun st _ => ⟨st, parseTokens_nil st, rfl⟩
  | cons p ps ih =>
    intro st h
    obtain ⟨st2, hp, hst⟩ := procToken_no_upstream st p (h p (by simp))
    obtain ⟨r, hr, hrst⟩ := ih st2 (fun t ht => h t (by simp [ht]))
    refine ⟨r, ?_, by rw [hrst, hst]⟩
    rw [parseTokens_cons, hp]
    exact hr

/-- C10: a non-empty line containing no `upstream_status=` token parses
with the default status 0, hence triggers the UnreachableEndpoint alert
(exactly one), and its status is never pushed into the rolling window —
absence of the token is indistinguishable from an explicit status 0. -/
theorem c10_missing_status_defaults (cfg : Config) (s : WatcherState) (now : Int)
    (rawLine : String) (h0 : rawLine.trim ≠ "")
    (h1 : ∀ t ∈ pythonSplit rawLine.trim, t.startsWith "upstream_status=" = false) :
    (parseLine rawLine.trim).map LogRecord.status = some 0 ∧
    ((processLine cfg s now rawLine).2.filter (fun a => a.isUnreachable)).length = 1 ∧
    (processLine cfg s now rawLine).1.statusWindow = s.statusWindow := by
  obtain ⟨r, hr, hst⟩ := parseTokens_no_upstream (pythonSplit rawLine.trim)
    ⟨"unknown", 0, []⟩ h1
  have hr' : parseLine rawLine.trim = some r := hr
  have hz : r.status = 0 := hst
  refine ⟨by rw [hr']; simp [hz], ?_, ?_⟩
  · rw [processLine_parse_ok cfg s now rawLine r h0 hr', processRecord_zero cfg _ now r hz]
    rw [List.filter_append]
    have hnil : (completenessStep { s with totalLogsCount := s.totalLogsCount + 1 }
        r.found).2.filter (fun a => a.isUnreachable) = [] := by
      rw [List.filter_eq_nil_iff]
      intro a ha
      rcases completenessStep_snd _ r.found with hcs | hcs <;> rw [hcs] at ha
      · simp at ha
      · simp at ha
        simp [ha, Alert.isUnreachable]
    rw [hnil]
    simp [Alert.isUnreachable]
  · rw [processLine_parse_ok cfg s now rawLine r h0 hr', processRecord_zero cfg _ now r hz]
    exact (completenessStep_fst _ r.found).2.2.2.1

/-- Witness for C10: the line `pool=a` from the initial state. -/
theorem c10_witness :
    (parseLine ("pool=a" : String).trim).map LogRecord.status = some 0 ∧
    ((processLine cfg0 (initState cfg0) 0 "pool=a").2.filter
      (fun a => a.isUnreachable)).length = 1 ∧
    (processLine cfg0 (initState cfg0) 0 "pool=a").1.statusWindow = [] := by
  have h0 : ("pool=a" : String).trim ≠ "" := by with_unfolding_all decide
  have h1 : ∀ t ∈ pythonSplit ("pool=a" : String).trim,
      t.startsWith "upstream_status=" = false := by with_unfolding_all decide
  exact c10_missing_status_defaults cfg0 (initState cfg0) 0 "pool=a" h0 h1

/-- A list of non-cooldown alerts contains no cooldown-governed alert. -/
lemma filter_shared_of_unshared (l : List Alert) (h : ∀ a ∈ l, a.isShared = false) :
    l.filter (fun a => a.isShared) = [] := by
  rw [List.filter_eq_nil_iff]
  intro a ha
  simp [h a ha]

/-- The field `last_pool` is updated on every pool change, sent or not. -/
lemma poolStep_lastPool (cfg : Config) (sc : WatcherState) (now : Int) (pool : String)
    (hp1 : pool ≠ "unknown") (hp2 : pool ≠ "-") (hp3 : pool ≠ sc.lastPool) :
    (poolStep cfg sc now pool).1.lastPool = pool := by
  unfold poolStep
  rw [if_pos ⟨hp1, hp2, hp3⟩]
  split <;> rfl

/-- An elapsed cooldown sends exactly the classification of the change. -/
lemma poolStep_emit (cfg : Config) (sc : WatcherState) (now : Int) (pool : String)
    (hp1 : pool ≠ "unknown") (hp2 : pool ≠ "-") (hp3 : pool ≠ sc.lastPool)
    (hcool : now - sc.lastAlertTime > cfg.cooldownSec) :
    (poolStep cfg sc now pool).2 = [classifyPool cfg.activePool sc.lastPool pool] := by
  unfold poolStep
  rw [if_pos ⟨hp1, hp2, hp3⟩, if_pos hcool]

/-- A not-yet-elapsed cooldown sends nothing and keeps the clock. -/
lemma poolStep_noemit (cfg : Config) (sc : WatcherState) (now : Int) (pool : String)
    (hcool : ¬(now - sc.lastAlertTime > cfg.cooldownSec)) :
    (poolStep cfg sc now pool).2 = [] ∧
    (poolStep cfg sc now pool).1.lastAlertTime = sc.lastAlertTime := by
  unfold poolStep
  split
  · exact ⟨rfl, rfl⟩
  · exact ⟨rfl, rfl⟩

/-- A not-yet-elapsed cooldown suppresses both error-rate alerts. -/
lemma errorStep_noemit (cfg : Config) (sc : WatcherState) (now : Int) (rate : ℚ)
    (hcool : ¬(now - sc.lastAlertTime > cfg.cooldownSec)) :
    (errorStep cfg sc now rate).2 = [] := by
  unfold errorStep
  split
  · split
    · rename_i hc
      exact absurd hc.1 hcool
    · rfl
  · split
    · rfl
    · rfl

/-- Failover classification. -/
lemma classifyPool_failover (a b p : String) (hb : b = a) (hp : p ≠ a) :
    classifyPool a b p = Alert.failover b p := by
  unfold classifyPool
  rw [if_pos ⟨hb, hp⟩]

/-- Recovery classification. -/
lemma classifyPool_recovery (a b p : String) (hb : b ≠ a) (hp : p = a) :
    classifyPool a b p = Alert.recovery b p := by
  unfold classifyPool
  rw [if_neg (fun hc => hb hc.1), if_pos ⟨hb, hp⟩]

/-- Generic pool-switch classification. -/
lemma classifyPool_switch (a b p : String) (h1 : ¬(b = a ∧ p ≠ a)) (h2 : ¬(b ≠ a ∧ p = a)) :
    classifyPool a b p = Alert.poolSwitch b p := by
  unfold classifyPool
  rw [if_neg h1, if_neg h2]

/-- C5: on every parsed non-zero-status record whose pool is a real value
different from `lastPool`, the change is classified Failover when leaving
the active pool, Recovery when returning to it, and PoolSwitch otherwise;
the alert is sent only if the cooldown has elapsed, while `lastPool` is
updated regardless; and the concrete sequence blue → green (active pool
blue) followed by green → blue after the cooldown yields exactly one
Failover then exactly one Recovery. -/
theorem c5_pool_change (cfg : Config) (s : WatcherState) (now : Int)
    (rawLine : String) (r : LogRecord)
    (h0 : rawLine.trim ≠ "") (h1 : parseLine rawLine.trim = some r)
    (h2 : r.status ≠ 0) (h3 : r.pool ≠ "unknown") (h4 : r.pool ≠ "-")
    (h5 : r.pool ≠ s.lastPool) :
    (processLine cfg s now rawLine).1.lastPool = r.pool ∧
    (now - s.lastAlertTime > cfg.cooldownSec →
      (s.lastPool = cfg.activePool → r.pool ≠ cfg.activePool →
        Alert.failover s.lastPool r.pool ∈ (processLine cfg s now rawLine).2) ∧
      (s.lastPool ≠ cfg.activePool → r.pool = cfg.activePool →
        Alert.recovery s.lastPool r.pool ∈ (processLine cfg s now rawLine).2) ∧
      (¬(s.lastPool = cfg.activePool ∧ r.pool ≠ cfg.activePool) →
        ¬(s.lastPool ≠ cfg.activePool ∧ r.pool = cfg.activePool) →
        Alert.poolSwitch s.lastPool r.pool ∈ (processLine cfg s now rawLine).2)) ∧
    (¬(now - s.lastAlertTime > cfg.cooldownSec) →
      (processLine cfg s now rawLine).2.filter (fun a => a.isShared) = []) ∧
    (processTrace cfg0 (initState cfg0)
      [((400 : Int), "pool=green upstream_status=200 request=/"),
       ((800 : Int), "pool=blue upstream_status=200 request=/")]).2 =
      [((400 : Int), Alert.failover "blue" "green"),
       ((800 : Int), Alert.recovery "green" "blue")] := by
  rw [processLine_parse_ok cfg s now rawLine r h0 h1, processRecord_nonzero cfg _ now r h2]
  set s0 : WatcherState := { s with totalLogsCount := s.totalLogsCount + 1 } with hs0
  have hc := completenessStep_fst s0 r.found
  set s1 : WatcherState :=
    { (completenessStep s0 r.found).1 with
      statusWindow := pushWindow cfg.windowSize
        (completenessStep s0 r.found).1.statusWindow r.status } with hs1
  set rate : ℚ := errorRate (pushWindow cfg.windowSize
    (completenessStep s0 r.found).1.statusWindow r.status) with hrate
  have hs1pool : s1.lastPool = s.lastPool := hc.2.1
  have hs1lat : s1.lastAlertTime = s.lastAlertTime := hc.1
  have h5' : r.pool ≠ s1.lastPool := by rw [hs1pool]; exact h5
  have hu : ∀ a ∈ (completenessStep s0 r.found).2 ++ headerStep r.status r.pool r.found,
      a.isShared = false := by
    intro a ha
    rcases List.mem_append.mp ha with h | h
    · exact completenessStep_unshared s0 r.found a h
    · exact headerStep_unshared r.status r.pool r.found a h
  refine ⟨?_, ?_, ?_, ?_⟩
  · have he := errorStep_preserves cfg (poolStep cfg s1 now r.pool).1 now rate
    rw [he.2.1]
    exact poolStep_lastPool cfg s1 now r.pool h3 h4 h5'
  · intro hcool
    have hcool1 : now - s1.lastAlertTime > cfg.cooldownSec := by rw [hs1lat]; exact hcool
    have hemit := poolStep_emit cfg s1 now r.pool h3 h4 h5' hcool1
    refine ⟨?_, ?_, ?_⟩
    · intro ha hb
      have hcls : classifyPool cfg.activePool s1.lastPool r.pool =
          Alert.failover s.lastPool r.pool := by
        rw [hs1pool]
        exact classifyPool_failover cfg.activePool s.lastPool r.pool ha hb
      simp [hemit, hcls]
    · intro ha hb
      have hcls : classifyPool cfg.activePool s1.lastPool r.pool =
          Alert.recovery s.lastPool r.pool := by
        rw [hs1pool]
        exact classifyPool_recovery cfg.activePool s.lastPool r.pool ha hb
      simp [hemit, hcls]
    · intro ha hb
      have hcls : classifyPool cfg.activePool s1.lastPool r.pool =
          Alert.poolSwitch s.lastPool r.pool := by
        rw [hs1pool]
        exact classifyPool_switch cfg.activePool s.lastPool r.pool ha hb
      simp [hemit, hcls]
  · intro hncool
    have hncool1 : ¬(now - s1.lastAlertTime > cfg.cooldownSec) := by
      rw [hs1lat]; exact hncool
    have hno := poolStep_noemit cfg s1 now r.pool hncool1
    have hncool2 : ¬(now - (poolStep cfg s1 now r.pool).1.lastAlertTime > cfg.cooldownSec) := by
      rw [hno.2, hs1lat]; exact hncool
    have heno := errorStep_noemit cfg (poolStep cfg s1 now r.pool).1 now rate hncool2
    rw [hno.1, heno]
    simp only [List.append_nil]
    exact filter_shared_of_unshared _ hu
  · with_unfolding_all decide

/-- Witness for C5: the first record of the blue → green scenario. -/
theorem c5_witness :
    (processLine cfg0 (initState cfg0) 400 "pool=green upstream_status=200 request=/").1.lastPool
      = "green" ∧
    Alert.failover "blue" "green" ∈
      (processLine cfg0 (initState cfg0) 400 "pool=green upstream_status=200 request=/").2 := by
  have h := c5_pool_change cfg0 (initState cfg0) 400
    "pool=green upstream_status=200 request=/"
    ⟨"green", 200, ["pool", "upstream_status", "request"]⟩
    (by with_unfolding_all decide) (by with_unfolding_all decide)
    (by decide) (by decide) (by decide) (by with_unfolding_all decide)
  exact ⟨h.1, (h.2.1 (by with_unfolding_all decide)).1 (by with_unfolding_all decide) (by decide)⟩

/-- Full characterisation of the error-rate latch at an arbitrary rate. -/
lemma errorStep_latch (cfg : Config) (s : WatcherState) (now : Int) (rate : ℚ) :
    (Alert.errorRateElevated rate ∈ (errorStep cfg s now rate).2 ↔
      (rate > cfg.threshold ∧ s.lastErrorState = false ∧
        now - s.lastAlertTime > cfg.cooldownSec)) ∧
    (Alert.errorRateRecovered rate ∈ (errorStep cfg s now rate).2 ↔
      (rate ≤ cfg.threshold ∧ s.lastErrorState = true ∧
        now - s.lastAlertTime > cfg.cooldownSec)) ∧
    ((errorStep cfg s now rate).1.lastErrorState =
      if Alert.errorRateElevated rate ∈ (errorStep cfg s now rate).2 then true
      else if Alert.errorRateRecovered rate ∈ (errorStep cfg s now rate).2 then false
      else s.lastErrorState) := by
  unfold errorStep
  by_cases hgt : rate > cfg.threshold
  · rw [if_pos hgt]
    by_cases hc : now - s.lastAlertTime > cfg.cooldownSec ∧ s.lastErrorState = false
    · rw [if_pos hc]
      refine ⟨?_, ?_, ?_⟩
      · simp [hgt, hc.1, hc.2]
      · have hnle := not_le.mpr hgt
        simp [hnle]
      · simp
    · rw [if_neg hc]
      refine ⟨?_, ?_, ?_⟩
      · simp only [List.not_mem_nil, false_iff]
        intro hcon
        exact hc ⟨hcon.2.2, hcon.2.1⟩
      · have hnle := not_le.mpr hgt
        simp [hnle]
      · simp
  · rw [if_neg hgt]
    have hle : rate ≤ cfg.threshold := not_lt.mp hgt
    by_cases hl : rate ≤ cfg.threshold ∧ s.lastErrorState = true
    · rw [if_pos hl]
      by_cases hcool : now - s.lastAlertTime > cfg.cooldownSec
      · rw [if_pos hcool]
        refine ⟨?_, ?_, ?_⟩
        · simp [hgt]
        · simp [hl.1, hl.2, hcool]
        · simp
      · rw [if_neg hcool]
        refine ⟨?_, ?_, ?_⟩
        · simp [hgt]
        · simp [hcool]
        · simp
    · rw [if_neg hl]
      have hnt : s.lastErrorState ≠ true := fun ht => hl ⟨hle, ht⟩
      refine ⟨?_, ?_, ?_⟩
      · simp [hgt]
      · simp [hnt]
      · simp

/-- C6: ErrorRateElevated fires exactly when `errorRate() > threshold`,
the latch is Normal and the cooldown has elapsed, and only then does the
latch become Elevated; ErrorRateRecovered fires exactly when
`errorRate() ≤ threshold`, the latch is Elevated and the cooldown has
elapsed, and only then does the latch revert to Normal; the latch never
changes unless the corresponding alert is actually sent. -/
theorem c6_error_latch (cfg : Config) (s : WatcherState) (now : Int) (w : List Int) :
    (Alert.errorRateElevated (errorRate w) ∈ (errorStep cfg s now (errorRate w)).2 ↔
      (errorRate w > cfg.threshold ∧ s.lastErrorState = false ∧
        now - s.lastAlertTime > cfg.cooldownSec)) ∧
    (Alert.errorRateRecovered (errorRate w) ∈ (errorStep cfg s now (errorRate w)).2 ↔
      (errorRate w ≤ cfg.threshold ∧ s.lastErrorState = true ∧
        now - s.lastAlertTime > cfg.cooldownSec)) ∧
    ((errorStep cfg s now (errorRate w)).1.lastErrorState =
      if Alert.errorRateElevated (errorRate w) ∈ (errorStep cfg s now (errorRate w)).2 then true
      else if Alert.errorRateRecovered (errorRate w) ∈ (errorStep cfg s now (errorRate w)).2
        then false
      else s.lastErrorState) :=
  errorStep_latch cfg s now (errorRate w)

/-- Splitting the empty line yields no tokens. -/
lemma pythonSplit_nil : pythonSplit "" = [] := by
  with_unfolding_all decide

/-- An `upstream_status=` token with a non-numeric value fails the token
loop at that token. -/
lemma procToken_fail (st : LogRecord) (tok : String)
    (h1 : tok.startsWith "upstream_status=" = true)
    (h2 : pyInt (((valueAfterEq tok).splitOn ",").headD "") = none) :
    procToken st tok = none := by
  unfold procToken
  rw [if_pos h1, h2]

/-- A bad `upstream_status=` token anywhere in the line fails the whole
token loop. -/
lemma parseTokens_fail : ∀ (ps : List String) (st : LogRecord) (tok : String),
    tok ∈ ps → tok.startsWith "upstream_status=" = true →
    pyInt (((valueAfterEq tok).splitOn ",").headD "") = none →
    parseTokens st ps = none := by
  intro ps
  induction ps with
  | nil =>
    intro st tok hmem
    exact absurd hmem (by simp)
  | cons p ps ih =>
    intro st tok hmem h2 h3
    rw [parseTokens_cons]
    rcases List.mem_cons.mp hmem with he | hin
    · rw [← he, procToken_fail st tok h2 h3]
    · cases hp : procToken st p with
      | none => rfl
      | some st2 => exact ih st2 tok hin h2 h3

/-- C4 counterexample: the claim says a line with a non-numeric
`upstream_status=` value leaves both completeness counters unchanged, but
`total_logs_count` is incremented before parsing: on
`upstream_status=zz` from the initial state it moves from 0 to 1 even
though the line is dropped. -/
theorem c4_counterexample :
    pythonSplit ("upstream_status=zz" : String).trim = ["upstream_status=zz"] ∧
    pyInt "zz" = none ∧
    parseLine ("upstream_status=zz" : String).trim = none ∧
    (initState cfg0).totalLogsCount = 0 ∧
    (processLine cfg0 (initState cfg0) 0 "upstream_status=zz").1.totalLogsCount = 1 := by
  with_unfolding_all decide

/-- C4 (amended): a line containing an `upstream_status=` token whose
value before the first comma is not a numeric integer is a parse failure
for the whole line: the line is dropped with no alert, and the window,
both pool/error alert states, the cooldown clock and `missingRecords` are
unchanged — but `totalRecords` is incremented by one, because the counter
is bumped before parsing. -/
theorem c4_amended_parse_failure (cfg : Config) (s : WatcherState) (now : Int)
    (rawLine tok : String)
    (h1 : tok ∈ pythonSplit rawLine.trim)
    (h2 : tok.startsWith "upstream_status=" = true)
    (h3 : pyInt (((valueAfterEq tok).splitOn ",").headD "") = none) :
    parseLine rawLine.trim = none ∧
    processLine cfg s now rawLine =
      ({ s with totalLogsCount := s.totalLogsCount + 1 }, []) := by
  have h0 : rawLine.trim ≠ "" := by
    intro he
    rw [he, pythonSplit_nil] at h1
    exact absurd h1 (by simp)
  have hfail : parseLine rawLine.trim = none :=
    parseTokens_fail (pythonSplit rawLine.trim) ⟨"unknown", 0, []⟩ tok h1 h2 h3
  exact ⟨hfail, processLine_parse_fail cfg s now rawLine h0 hfail⟩

/-- Witness for C4 (amended): the line `a upstream_status=9x b`. -/
theorem c4_witness :
    parseLine ("a upstream_status=9x b" : String).trim = none ∧
    processLine cfg0 (initState cfg0) 0 "a upstream_status=9x b" =
      ({ initState cfg0 with
          totalLogsCount := (initState cfg0).totalLogsCount + 1 }, []) :=
  c4_amended_parse_failure cfg0 (initState cfg0) 0 "a upstream_status=9x b"
    "upstream_status=9x" (by with_unfolding_all decide)
    (by with_unfolding_all decide) (by with_unfolding_all decide)

/-- The missing-fields filter is empty exactly when all required fields
were found. -/
lemma missing_isEmpty_iff (found : List String) :
    (requiredFields.filter (fun f => decide (f ∉ found))).isEmpty = true ↔
      (∀ f ∈ requiredFields, f ∈ found) := by
  rw [List.isEmpty_iff, List.filter_eq_nil_iff]
  constructor
  · intro h f hf
    by_contra hnf
    exact (h f hf) (by simpa using hnf)
  · intro h f hf
    simp [h f hf]

/-- A record with all required fields leaves the tracker unchanged. -/
lemma completenessStep_complete (s : WatcherState) (found : List String)
    (h : ∀ f ∈ requiredFields, f ∈ found) :
    completenessStep s found = (s, []) := by
  unfold completenessStep
  rw [if_pos ((missing_isEmpty_iff found).mpr h)]

/-- A record lacking a required field increments the tracker and emits the
data-quality alert exactly under the ratio and modulo conditions. -/
lemma completenessStep_incomplete (s : WatcherState) (found : List String)
    (h : ¬(∀ f ∈ requiredFields, f ∈ found)) :
    completenessStep s found =
      if (((s.missingFieldsCount + 1 : ℕ) : ℚ) / ((s.totalLogsCount : ℕ) : ℚ)) * 3 ≥ 1 ∧
          s.totalLogsCount % 50 = 0 then
        ({ s with missingFieldsCount := s.missingFieldsCount + 1 },
          [Alert.dataQuality (s.missingFieldsCount + 1) s.totalLogsCount])
      else ({ s with missingFieldsCount := s.missingFieldsCount + 1 }, []) := by
  unfold completenessStep
  rw [if_neg (fun hc => h ((missing_isEmpty_iff found).mp hc))]

/-- The tracker increment, as a function of field completeness. -/
lemma completenessStep_missing (s : WatcherState) (found : List String) :
    (completenessStep s found).1.missingFieldsCount =
      if (∀ f ∈ requiredFields, f ∈ found) then s.missingFieldsCount
      else s.missingFieldsCount + 1 := by
  by_cases h : ∀ f ∈ requiredFields, f ∈ found
  · rw [completenessStep_complete s found h, if_pos h]
  · rw [completenessStep_incomplete s found h, if_neg h]
    split <;> rfl

/-- Data-quality membership in the completeness alerts. -/
lemma completenessStep_dq_iff (s : WatcherState) (found : List String) :
    Alert.dataQuality (s.missingFieldsCount + 1) s.totalLogsCount ∈
        (completenessStep s found).2 ↔
      (¬(∀ f ∈ requiredFields, f ∈ found) ∧
        (((s.missingFieldsCount + 1 : ℕ) : ℚ) / ((s.totalLogsCount : ℕ) : ℚ)) * 3 ≥ 1 ∧
        s.totalLogsCount % 50 = 0) := by
  by_cases h : ∀ f ∈ requiredFields, f ∈ found
  · rw [completenessStep_complete s found h]
    simp only [List.not_mem_nil, false_iff]
    intro hcon
    exact hcon.1 h
  · rw [completenessStep_incomplete s found h]
    by_cases hcond : (((s.missingFieldsCount + 1 : ℕ) : ℚ) /
        ((s.totalLogsCount : ℕ) : ℚ)) * 3 ≥ 1 ∧ s.totalLogsCount % 50 = 0
    · rw [if_pos hcond]
      constructor
      · intro _
        exact ⟨h, hcond.1, hcond.2⟩
      · intro _
        simp
    · rw [if_neg hcond]
      simp only [List.not_mem_nil, false_iff]
      intro hcon
      exact hcond ⟨hcon.2.1, hcon.2.2⟩

/-- No pool-change classification is a data-quality alert. -/
lemma classifyPool_ne_dq (a b p : String) (m t : Nat) :
    classifyPool a b p ≠ Alert.dataQuality m t := by
  unfold classifyPool
  split
  · simp
  · split <;> simp

/-- The record pipeline never touches `totalLogsCount`, and its
`missingFieldsCount` is the completeness step's. -/
lemma processRecord_counters (cfg : Config) (s : WatcherState) (now : Int) (r : LogRecord) :
    (processRecord cfg s now r).1.totalLogsCount = s.totalLogsCount ∧
    (processRecord cfg s now r).1.missingFieldsCount =
      (completenessStep s r.found).1.missingFieldsCount := by
  by_cases hz : r.status = 0
  · rw [processRecord_zero cfg s now r hz]
    exact ⟨(completenessStep_fst s r.found).2.2.2.2, rfl⟩
  · rw [processRecord_nonzero cfg s now r hz]
    constructor
    · rw [(errorStep_preserves cfg _ now _).2.2.2, (poolStep_preserves cfg _ now _).2.2.2]
      exact (completenessStep_fst s r.found).2.2.2.2
    · rw [(errorStep_preserves cfg _ now _).2.2.1, (poolStep_preserves cfg _ now _).2.2.1]

/-- Data-quality alerts of a record come only from the completeness step. -/
lemma processRecord_dq_mem (cfg : Config) (s : WatcherState) (now : Int) (r : LogRecord)
    (m t : Nat) :
    Alert.dataQuality m t ∈ (processRecord cfg s now r).2 ↔
      Alert.dataQuality m t ∈ (completenessStep s r.found).2 := by
  by_cases hz : r.status = 0
  · rw [processRecord_zero cfg s now r hz]
    simp
  · rw [processRecord_nonzero cfg s now r hz]
    simp only [List.mem_append]
    constructor
    · intro hmem
      rcases hmem with ((h | h) | h) | h
      · exact h
      · rcases headerStep_cases r.status r.pool r.found with hs | hs <;> rw [hs] at h <;>
          simp at h
      · rcases poolStep_snd cfg _ now r.pool with hs | hs <;> rw [hs] at h
        · simp at h
        · simp only [List.mem_singleton] at h
          exact absurd h.symm (classifyPool_ne_dq _ _ _ m t)
      · rcases errorStep_snd cfg _ now _ with hs | hs | hs <;> rw [hs] at h <;> simp at h
    · intro hmem
      exact Or.inl (Or.inl (Or.inl hmem))


/-- A push into a non-full window is a plain append. -/
lemma pushWindow_of_lt (n : Nat) (w : List Int) (x : Int) (h : w.length < n) :
    pushWindow n w x = w ++ [x] := by
  rw [pushWindow_eq]
  have h0 : w.length + 1 - n = 0 := by omega
  rw [h0, List.drop_zero]

/-- A window of 200s holds no errors. -/
lemma countErrors_replicate_200 (k : ℕ) :
    countErrors (List.replicate k (200 : Int)) = 0 := by
  induction k with
  | zero => rfl
  | succ k ih =>
    unfold countErrors at ih ⊢
    rw [List.replicate_succ, List.filter_cons]
    simp only [show (decide (500 ≤ (200 : Int) ∧ (200 : Int) < 600)) = false by decide,
      Bool.false_eq_true, if_false]
    exact ih

/-- A window of 200s has error rate 0. -/
lemma errorRate_replicate_200 (k : ℕ) :
    errorRate (List.replicate k (200 : Int)) = 0 := by
  cases k with
  | zero => rfl
  | succ k =>
    unfold errorRate
    rw [if_neg (by simp), countErrors_replicate_200]
    simp

/-- An unchanged pool is ignored by the pool step. -/
lemma poolStep_same (cfg : Config) (sc : WatcherState) (now : Int) (pool : String)
    (h : pool = sc.lastPool) : poolStep cfg sc now pool = (sc, []) := by
  unfold poolStep
  rw [if_neg (fun hc => hc.2.2 h)]

/-- A pool change inside the cooldown only updates `last_pool`. -/
lemma poolStep_update_noemit (cfg : Config) (sc : WatcherState) (now : Int) (pool : String)
    (h1 : pool ≠ "unknown") (h2 : pool ≠ "-") (h3 : pool ≠ sc.lastPool)
    (hcool : ¬(now - sc.lastAlertTime > cfg.cooldownSec)) :
    poolStep cfg sc now pool = ({ sc with lastPool := pool }, []) := by
  unfold poolStep
  rw [if_pos ⟨h1, h2, h3⟩, if_neg hcool]

/-- A low rate with a Normal latch leaves the error step idle. -/
lemma errorStep_idle (cfg : Config) (sc : WatcherState) (now : Int) (rate : ℚ)
    (hgt : ¬(rate > cfg.threshold)) (hstate : sc.lastErrorState = false) :
    errorStep cfg sc now rate = (sc, []) := by
  unfold errorStep
  rw [if_neg hgt, if_neg (fun hc => absurd (hstate.symm.trans hc.2) (by simp))]

/-- The full-window scaling of the completeness ratio at a record where
every record so far was incomplete. -/
lemma ratio_self_ge_one (n : ℕ) (h : 0 < n) :
    (((n : ℕ) : ℚ) / ((n : ℕ) : ℚ)) * 3 ≥ 1 := by
  have hn : ((n : ℕ) : ℚ) ≠ 0 := by
    exact_mod_cast h.ne'
  rw [div_self hn]
  norm_num

/-- Traces compose along append. -/
lemma processTrace_append (cfg : Config) (s : WatcherState)
    (l1 l2 : List (Int × String)) :
    processTrace cfg s (l1 ++ l2) =
      ((processTrace cfg (processTrace cfg s l1).1 l2).1,
        (processTrace cfg s l1).2 ++ (processTrace cfg (processTrace cfg s l1).1 l2).2) := by
  induction l1 generalizing s with
  | nil => simp [processTrace]
  | cons p rest ih =>
    cases p with
    | mk now line =>
      simp only [List.cons_append, processTrace, List.append_eq]
      rw [ih]
      simp [List.append_assoc]

/-- One incomplete record `pool=a upstream_status=200` processed at the
running scenario state: counters advance, the window gains a 200, and the
data-quality alert fires exactly at multiples of 50. -/
lemma c3_step (m : ℕ) (lp : String) (hm : m < 200) :
    processLine cfg0 ⟨0, lp, false, List.replicate m 200, m, m⟩ 0
        "pool=a upstream_status=200" =
      (⟨0, "a", false, List.replicate (m + 1) 200, m + 1, m + 1⟩,
        if (m + 1) % 50 = 0 then [Alert.dataQuality (m + 1) (m + 1)] else []) := by
  rw [processLine_parse_ok cfg0 _ 0 _ ⟨"a", 200, ["pool", "upstream_status"]⟩
    (by with_unfolding_all decide) (by with_unfolding_all decide)]
  rw [processRecord_nonzero cfg0 _ 0 _ (by decide)]
  dsimp only []
  have hram : (((m + 1 : ℕ) : ℚ) / ((m + 1 : ℕ) : ℚ)) * 3 ≥ 1 :=
    ratio_self_ge_one (m + 1) (by omega)
  have hpair : completenessStep (⟨0, lp, false, List.replicate m 200, m, m + 1⟩ : WatcherState)
      ["pool", "upstream_status"] =
      (⟨0, lp, false, List.replicate m 200, m + 1, m + 1⟩,
        if (m + 1) % 50 = 0 then [Alert.dataQuality (m + 1) (m + 1)] else []) := by
    rw [completenessStep_incomplete _ _ (by with_unfolding_all decide)]
    by_cases hmod : (m + 1) % 50 = 0
    · rw [if_pos ⟨hram, hmod⟩, if_pos hmod]
    · rw [if_neg (fun hc => hmod hc.2), if_neg hmod]
  rw [hpair]
  dsimp only []
  rw [pushWindow_of_lt cfg0.windowSize (List.replicate m 200) 200
    (by rw [List.length_replicate, show cfg0.windowSize = 200 from rfl]; exact hm)]
  rw [← List.replicate_succ', errorRate_replicate_200 (m + 1)]
  have hhdr : headerStep 200 "a" ["pool", "upstream_status"] = [] := by
    with_unfolding_all decide
  by_cases hlp : lp = "a"
  · subst hlp
    rw [poolStep_same cfg0 _ 0 "a" rfl]
    dsimp only []
    rw [errorStep_idle cfg0 _ 0 0 (by with_unfolding_all decide) rfl]
    rw [hhdr]
    simp
  · rw [poolStep_update_noemit cfg0 _ 0 "a" (by decide) (by decide)
      (fun h => hlp h.symm) (by dsimp only []; with_unfolding_all decide)]
    dsimp only []
    rw [errorStep_idle cfg0 _ 0 0 (by with_unfolding_all decide) rfl]
    rw [hhdr]
    simp

/-- A run of `k` incomplete records away from alert boundaries: counters
advance in lockstep, no alert is delivered. -/
lemma c3_run (k : ℕ) : ∀ (m : ℕ) (lp : String), m + k ≤ 200 →
    (∀ j, m < j → j ≤ m + k → j % 50 ≠ 0) →
    processTrace cfg0 ⟨0, lp, false, List.replicate m 200, m, m⟩
      (List.replicate k ((0 : Int), "pool=a upstream_status=200")) =
    (⟨0, if k = 0 then lp else "a", false,
        List.replicate (m + k) 200, m + k, m + k⟩, []) := by
  induction k with
  | zero =>
    intro m lp _ _
    simp [processTrace]
  | succ k ih =>
    intro m lp hle hmod
    rw [List.replicate_succ]
    simp only [processTrace]
    rw [c3_step m lp (by omega), if_neg (hmod (m + 1) (by omega) (by omega))]
    dsimp only []
    rw [ih (m + 1) "a" (by omega) (fun j h1 h2 => hmod j (by omega) (by omega))]
    have harith : m + 1 + k = m + (k + 1) := by omega
    rw [harith]
    simp

/-- The 50th record being complete: counters diverge (`total` reaches 50
while `missing` stays at 49) and no alert is delivered. -/
lemma c3_complete_step :
    processLine cfg0 ⟨0, "a", false, List.replicate 49 200, 49, 49⟩ 0
        "pool=a upstream_status=200 request=/" =
      (⟨0, "a", false, List.replicate 50 200, 49, 50⟩, []) := by
  rw [processLine_parse_ok cfg0 _ 0 _ ⟨"a", 200, ["pool", "upstream_status", "request"]⟩
    (by with_unfolding_all decide) (by with_unfolding_all decide)]
  rw [processRecord_nonzero cfg0 _ 0 _ (by decide)]
  dsimp only []
  rw [completenessStep_complete _ _ (by with_unfolding_all decide)]
  dsimp only []
  rw [pushWindow_of_lt cfg0.windowSize (List.replicate 49 200) 200
    (by rw [List.length_replicate]; with_unfolding_all decide)]
  rw [← List.replicate_succ']
  have h50 : (49 : ℕ) + 1 = 50 := by norm_num
  rw [h50, errorRate_replicate_200 50]
  rw [poolStep_same cfg0 _ 0 "a" rfl]
  dsimp only []
  rw [errorStep_idle cfg0 _ 0 0 (by with_unfolding_all decide) rfl]
  rw [show headerStep 200 "a" ["pool", "upstream_status", "request"] = [] from
    by with_unfolding_all decide]
  simp

/-- Processing the complete 50th record as a singleton trace. -/
lemma c3_one_complete :
    processTrace cfg0 (⟨0, "a", false, List.replicate 49 200, 49, 49⟩ : WatcherState)
        [((0 : Int), "pool=a upstream_status=200 request=/")] =
      (⟨0, "a", false, List.replicate 50 200, 49, 50⟩, []) := by
  simp only [processTrace]
  rw [c3_complete_step]
  simp

/-- Processing an incomplete 50th record as a singleton trace: the
data-quality alert fires. -/
lemma c3_one_incomplete :
    processTrace cfg0 (⟨0, "a", false, List.replicate 49 200, 49, 49⟩ : WatcherState)
        [((0 : Int), "pool=a upstream_status=200")] =
      (⟨0, "a", false, List.replicate 50 200, 50, 50⟩,
        [((0 : Int), Alert.dataQuality 50 50)]) := by
  simp only [processTrace]
  rw [c3_step 49 "a" (by omega), if_pos (by norm_num)]
  norm_num

/-- The state after the 49 incomplete records of the scenario. -/
lemma c3_state49 :
    processTrace cfg0 (initState cfg0)
        (List.replicate 49 ((0 : Int), "pool=a upstream_status=200")) =
      (⟨0, "a", false, List.replicate 49 200, 49, 49⟩, []) := by
  have h49 := c3_run 49 0 "blue" (by omega) (fun j h1 h2 => by omega)
  have hinit : initState cfg0 = ⟨0, "blue", false, List.replicate 0 200, 0, 0⟩ := rfl
  rw [hinit, h49]
  norm_num

/-- C3 counterexample: (i) a parse-failure line (`upstream_status=abc`)
still increments `totalRecords` from 0 to 1; (ii) after 49 incomplete
records and a 50th complete one, `missingRatio ≥ 1` and
`totalRecords mod 50 = 0` both hold yet no DataQuality alert was emitted,
because the alert additionally requires the current record itself to lack
a field. -/
theorem c3_counterexample :
    (parseLine ("upstream_status=abc" : String).trim = none ∧
      (processLine cfg0 (initState cfg0) 0 "upstream_status=abc").1.totalLogsCount = 1) ∧
    ((processTrace cfg0 (initState cfg0)
        (List.replicate 49 ((0 : Int), "pool=a upstream_status=200") ++
          [((0 : Int), "pool=a upstream_status=200 request=/")])).1.totalLogsCount = 50 ∧
      (processTrace cfg0 (initState cfg0)
        (List.replicate 49 ((0 : Int), "pool=a upstream_status=200") ++
          [((0 : Int), "pool=a upstream_status=200 request=/")])).1.missingFieldsCount = 49 ∧
      (((49 : ℕ) : ℚ) / ((50 : ℕ) : ℚ)) * 3 ≥ 1 ∧
      (50 : ℕ) % 50 = 0 ∧
      (processTrace cfg0 (initState cfg0)
        (List.replicate 49 ((0 : Int), "pool=a upstream_status=200") ++
          [((0 : Int), "pool=a upstream_status=200 request=/")])).2 = []) := by
  have hfull : processTrace cfg0 (initState cfg0)
      (List.replicate 49 ((0 : Int), "pool=a upstream_status=200") ++
        [((0 : Int), "pool=a upstream_status=200 request=/")]) =
      (⟨0, "a", false, List.replicate 50 200, 49, 50⟩, []) := by
    rw [processTrace_append, c3_state49]
    dsimp only []
    rw [c3_one_complete]
    simp
  refine ⟨⟨?_, ?_⟩, ?_, ?_, ?_, ?_, ?_⟩
  · with_unfolding_all decide
  · with_unfolding_all decide
  · rw [hfull]
  · rw [hfull]
  · with_unfolding_all decide
  · norm_num
  · rw [hfull]

/-- C3 (amended): `totalRecords` is incremented on every non-empty line,
including lines discarded as parse failures (the counter is bumped before
parsing); `missingRecords` is incremented exactly when a successfully
parsed record lacks a required field; a DataQuality alert is emitted
exactly when the current record lacks a required field AND
`missingRatio = (missingRecords/totalRecords)*3 ≥ 1` AND
`totalRecords mod 50 = 0`; across 50 consecutive records each missing the
`request` field it fires exactly once, at record 50 and not before. -/
theorem c3_amended_completeness (cfg : Config) (s : WatcherState) (now : Int)
    (rawLine : String) (r : LogRecord) (h0 : rawLine.trim ≠ "") :
    (processLine cfg s now rawLine).1.totalLogsCount = s.totalLogsCount + 1 ∧
    (parseLine rawLine.trim = none →
      processLine cfg s now rawLine =
        ({ s with totalLogsCount := s.totalLogsCount + 1 }, [])) ∧
    (parseLine rawLine.trim = some r →
      ((∀ f ∈ requiredFields, f ∈ r.found) →
        (processLine cfg s now rawLine).1.missingFieldsCount = s.missingFieldsCount) ∧
      (¬(∀ f ∈ requiredFields, f ∈ r.found) →
        (processLine cfg s now rawLine).1.missingFieldsCount = s.missingFieldsCount + 1) ∧
      (Alert.dataQuality (s.missingFieldsCount + 1) (s.totalLogsCount + 1) ∈
          (processLine cfg s now rawLine).2 ↔
        (¬(∀ f ∈ requiredFields, f ∈ r.found) ∧
          (((s.missingFieldsCount + 1 : ℕ) : ℚ) / ((s.totalLogsCount + 1 : ℕ) : ℚ)) * 3 ≥ 1 ∧
          (s.totalLogsCount + 1) % 50 = 0))) ∧
    (processTrace cfg0 (initState cfg0)
      (List.replicate 50 ((0 : Int), "pool=a upstream_status=200"))).2 =
      [((0 : Int), Alert.dataQuality 50 50)] := by
  refine ⟨?_, ?_, ?_, ?_⟩
  · cases hp : parseLine rawLine.trim with
    | none => rw [processLine_parse_fail cfg s now rawLine h0 hp]
    | some r2 =>
      rw [processLine_parse_ok cfg s now rawLine r2 h0 hp]
      exact (processRecord_counters cfg _ now r2).1
  · intro hp
    exact processLine_parse_fail cfg s now rawLine h0 hp
  · intro hp
    rw [processLine_parse_ok cfg s now rawLine r h0 hp]
    refine ⟨?_, ?_, ?_⟩
    · intro hall
      rw [(processRecord_counters cfg _ now r).2, completenessStep_missing _ r.found,
        if_pos hall]
    · intro hnall
      rw [(processRecord_counters cfg _ now r).2, completenessStep_missing _ r.found,
        if_neg hnall]
    · rw [processRecord_dq_mem cfg _ now r]
      exact completenessStep_dq_iff
        { s with totalLogsCount := s.totalLogsCount + 1 } r.found
  · rw [show List.replicate 50 ((0 : Int), "pool=a upstream_status=200") =
        List.replicate 49 ((0 : Int), "pool=a upstream_status=200") ++
          [((0 : Int), "pool=a upstream_status=200")] from by
      rw [show (50 : ℕ) = 49 + 1 from by norm_num, List.replicate_succ']]
    rw [processTrace_append, c3_state49]
    dsimp only []
    rw [c3_one_incomplete]
    simp

/-- Witness for C3 (amended): the incomplete line
`pool=a upstream_status=200` processed from the initial state. -/
theorem c3_witness :
    (processLine cfg0 (initState cfg0) 0 "pool=a upstream_status=200").1.totalLogsCount = 1 ∧
    (processLine cfg0 (initState cfg0) 0 "pool=a upstream_status=200").1.missingFieldsCount
      = 1 := by
  have h := c3_amended_completeness cfg0 (initState cfg0) 0 "pool=a upstream_status=200"
    ⟨"a", 200, ["pool", "upstream_status"]⟩ (by with_unfolding_all decide)
  refine ⟨h.1, ?_⟩
  exact (h.2.2.1 (by with_unfolding_all decide)).2.1 (by with_unfolding_all decide)
